import Mathlib

/-!
Shallow embedding of the crawl-orchestration engine of the `historium`
repository (src/utils/manager.py, src/utils/rate_limiter.py, src/main.py).

The Python code drives items through fetch → transform → persist with a
retry loop, aggregates per-museum statistics inside worker loops, throttles
requests with a per-museum rate limiter, and sizes worker pools from a
snapshot of the number of active museums.  Each definition below carries a
comment naming the source lines it embeds.  The external world (HTTP
responses, MongoDB outcomes, clock readings) is passed in explicitly as
data, so every function is executable.
-/

set_option autoImplicit false

namespace Historium

/-! ### External outcomes of one processing attempt

`CrawlerManager.process_artwork` (manager.py lines 224-248) performs, inside
one attempt: `rate_limiter.acquire`, `crawler.get_artwork_data` (which can
raise, or return `None` for a 404 "not found", see crawlers/met.py
`_make_request`), `crawler.transform_data` (which can raise, or return
`None`), and `self.save_artwork` (which can hit a `DuplicateKeyError`, some
other exception, or succeed).  We record what the world does on a given
attempt as plain data. -/

/-- Result of `crawler.get_artwork_data` on one attempt: an exception, the
`None` "not found" sentinel, or a raw payload. -/
inductive FetchResult where
  | err
  | notFound
  | data
  deriving DecidableEq

/-- Result of `crawler.transform_data` on one attempt: an exception, `None`,
or a canonical record. -/
inductive TransformResult where
  | err
  | none
  | data
  deriving DecidableEq

/-- Result of the MongoDB `update_one` upsert inside `save_artwork`:
success, a `DuplicateKeyError`, or some other exception. -/
inductive PersistResult where
  | ok
  | dupKey
  | failure
  deriving DecidableEq

/-- The world's behaviour on one attempt of `process_artwork`. -/
structure AttemptEnv where
  fetch : FetchResult
  transform : TransformResult
  persist : PersistResult
  deriving DecidableEq

instance : DecidableEq (Except Unit Unit) := fun a b =>
  match a, b with
  | Except.ok (), Except.ok () => isTrue rfl
  | Except.error (), Except.error () => isTrue rfl
  | Except.ok (), Except.error () => isFalse (fun h => Except.noConfusion h)
  | Except.error (), Except.ok () => isFalse (fun h => Except.noConfusion h)

/-- What `save_artwork` (manager.py lines 250-272) does, as a function of
the upsert outcome: `DuplicateKeyError` is caught and only logs a warning
(normal return); every other exception is logged as an error and re-raised;
success returns normally. -/
structure SaveResult where
  result : Except Unit Unit
  warnLogged : Bool
  errLogged : Bool
  deriving DecidableEq

/-- Embeds `CrawlerManager.save_artwork`, manager.py lines 250-272. -/
def save_artwork : PersistResult → SaveResult
  | PersistResult.ok => ⟨Except.ok (), false, false⟩
  | PersistResult.dupKey => ⟨Except.ok (), true, false⟩
  | PersistResult.failure => ⟨Except.error (), false, true⟩

/-- Outcome of the body of one attempt of `process_artwork` (manager.py
lines 230-243): `skip` means the body executed `return False` (fetch gave
`None`, or transform gave `None`); `success` means it executed
`return True`; `error` means an exception escaped the body into the
`except` clause of the retry loop. -/
inductive AttemptOutcome where
  | success
  | skip
  | error
  deriving DecidableEq

/-- One attempt body of `process_artwork`, manager.py lines 230-243. -/
def attemptOnce (env : AttemptEnv) : AttemptOutcome :=
  match env.fetch with
  | FetchResult.err => AttemptOutcome.error
  | FetchResult.notFound => AttemptOutcome.skip
  | FetchResult.data =>
    match env.transform with
    | TransformResult.err => AttemptOutcome.error
    | TransformResult.none => AttemptOutcome.skip
    | TransformResult.data =>
      match (save_artwork env.persist).result with
      | Except.ok _ => AttemptOutcome.success
      | Except.error _ => AttemptOutcome.error

/-- How the whole `process_artwork` call ends, as seen by `await task` in
the worker: `retTrue`/`retFalse` are the explicit `return True`/
`return False`; `retNone` is Python's implicit `return None` when the
`for attempt in range(max_retries)` loop body never runs (only possible
when `max_retries == 0`); `raised` means an exception propagated out. -/
inductive ProcessResult where
  | retTrue
  | retFalse
  | retNone
  | raised
  deriving DecidableEq

/-- The retry loop `for attempt in range(max_retries): ...` of
`process_artwork`, manager.py lines 229-248, run over the list of remaining
attempt indices.  Returns the result together with the list of backoff
sleep durations (`await asyncio.sleep(2 ** attempt)`) executed in order. -/
def processFor (envs : ℕ → AttemptEnv) (m : ℕ) : List ℕ → ProcessResult × List ℕ
  | [] => (ProcessResult.retNone, [])
  | a :: rest =>
    match attemptOnce (envs a) with
    | AttemptOutcome.skip => (ProcessResult.retFalse, [])
    | AttemptOutcome.success => (ProcessResult.retTrue, [])
    | AttemptOutcome.error =>
      if a = m - 1 then (ProcessResult.raised, [])
      else
        let r := processFor envs m rest
        (r.1, 2 ^ a :: r.2)

/-- Embeds `CrawlerManager.process_artwork` (manager.py lines 224-248) for
a given `max_retries = m` and per-attempt world behaviour `envs`:
`for attempt in range(max_retries)`. -/
def process_artwork (envs : ℕ → AttemptEnv) (m : ℕ) : ProcessResult × List ℕ :=
  processFor envs m (List.range m)

/-- How `process_artwork` ends when the attempt the loop stops at has the
given body outcome (`error` only stops the loop on the last attempt, where
it re-raises). -/
def stopResult : AttemptOutcome → ProcessResult
  | AttemptOutcome.skip => ProcessResult.retFalse
  | AttemptOutcome.success => ProcessResult.retTrue
  | AttemptOutcome.error => ProcessResult.raised

/-! ### Worker stats accounting

`CrawlerManager.worker` (manager.py lines 161-202) awaits the processing
task inside a `try`/`except Exception`/`finally` block (lines 177-190).
A normal return (any of `retTrue`, `retFalse`, `retNone`) increments
`successful`; an `Exception` increments `failed`; a `CancelledError`
raised while awaiting the task is *not* caught by `except Exception`
(it derives from `BaseException` in Python ≥ 3.8), so neither counter
moves, but the `finally` block still increments `total_processed`. -/

/-- What `await task` produces at the worker, manager.py line 182: the
task completed with a `ProcessResult`, or the worker was cancelled while
awaiting it. -/
inductive AwaitOutcome where
  | completed (r : ProcessResult)
  | cancelled
  deriving DecidableEq

/-- The per-museum counters of `self.stats[museum_name]`, manager.py
lines 107-112 (the static `total_artworks` field is kept separate). -/
structure Stats where
  total_processed : ℕ
  successful : ℕ
  failed : ℕ
  deriving DecidableEq

/-- Initial stats, manager.py lines 107-112. -/
def initStats : Stats := ⟨0, 0, 0⟩

/-- The `try`/`except Exception`/`finally` accounting of one dequeued
item, manager.py lines 177-190. -/
def workerRecord (s : Stats) (o : AwaitOutcome) : Stats :=
  match o with
  | AwaitOutcome.completed ProcessResult.raised =>
    { s with failed := s.failed + 1, total_processed := s.total_processed + 1 }
  | AwaitOutcome.completed _ =>
    { s with successful := s.successful + 1, total_processed := s.total_processed + 1 }
  | AwaitOutcome.cancelled =>
    { s with total_processed := s.total_processed + 1 }

/-- What one dequeue attempt (`asyncio.wait_for(queue.get(), timeout=1.0)`,
manager.py lines 167-170) yields: a `TimeoutError`, a `CancelledError`
during the wait, the `None` sentinel, or an item whose processing has the
given outcome. -/
inductive DequeueResult where
  | timeout
  | waitCancelled
  | sentinel
  | item (o : AwaitOutcome)

/-- One iteration of the worker loop as observed from outside: the value
`self.shutdown_event.is_set()` reads at the loop head (manager.py
line 164), and — if the loop body runs — what the dequeue attempt yields. -/
structure WIter where
  shutdown : Bool
  dq : DequeueResult

/-- Embeds the worker loop `while not self.shutdown_event.is_set(): ...`
(manager.py lines 161-199) over a list of iteration observations, starting
at iteration index `k`.  Returns the final stats together with the indices
of the iterations in which a dequeue was attempted (i.e. in which
`asyncio.wait_for(queue.get(), ...)` was called).  A `TimeoutError`
continues the loop; a sentinel, a `CancelledError` during the wait, or a
`CancelledError` while awaiting the processing task breaks out of it. -/
def workerLoop : ℕ → List WIter → Stats → Stats × List ℕ
  | _, [], s => (s, [])
  | k, it :: rest, s =>
    if it.shutdown then (s, [])
    else
      match it.dq with
      | DequeueResult.timeout =>
        let r := workerLoop (k + 1) rest s
        (r.1, k :: r.2)
      | DequeueResult.waitCancelled => (s, [k])
      | DequeueResult.sentinel => (s, [k])
      | DequeueResult.item o =>
        match o with
        | AwaitOutcome.cancelled => (workerRecord s o, [k])
        | AwaitOutcome.completed _ =>
          let r := workerLoop (k + 1) rest (workerRecord s o)
          (r.1, k :: r.2)

/-- A worker starting at its first iteration. -/
def workerRun (iters : List WIter) (s : Stats) : Stats × List ℕ :=
  workerLoop 0 iters s

/-! ### Source-run aggregate (crawl_museum)

`CrawlerManager.crawl_museum` (manager.py lines 81-159) discovers
`artwork_ids`, optionally truncates them (`if self.max_artworks_per_museum:
artwork_ids = artwork_ids[:self.max_artworks_per_museum]`, lines 121-122 —
note Python truthiness: a cap of `None` *or* `0` leaves the list
untruncated), enqueues them, sizes its worker pool (lines 94-96), lets the
workers drain the queue, and finally reports via `_log_museum_stats`
(line 149).  Whether a run completes, and what it processes, depends on
two boundary conditions of the code itself:

* if the computed worker count is `0` (which happens exactly when
  `max_concurrent_requests = 0`, see lines 95-96), no worker and no
  sentinel is created, `asyncio.gather()` over the empty pool returns at
  once, and the run completes with the *initial* stats — the enqueued
  identifiers are never dequeued;
* if discovery returned zero identifiers, `_log_museum_stats` divides by
  `total_artworks = 0` (manager.py line 222) and raises, so the run never
  completes normally at all.

Otherwise every enqueued id is handled by exactly one worker via
`workerRecord`; since each record step is a single increment of
source-local counters under cooperative scheduling, the final stats are
the fold of `workerRecord` over the per-item outcomes. -/

/-- The truncation of manager.py lines 121-122 with Python truthiness on
`max_artworks_per_museum` (`None` and `0` are both falsy). -/
def truncateIds {α : Type} (cap : Option ℕ) (ids : List α) : List α :=
  match cap with
  | Option.none => ids
  | Option.some c => if c ≠ 0 then ids.take c else ids

/-- Final stats of a completed source run in which the `i`-th enqueued item
finished with `AwaitOutcome` `out i`. -/
def runStats (outs : List AwaitOutcome) : Stats :=
  outs.foldl workerRecord initStats

/-- The worker-pool size computed at the start of `crawl_museum`,
manager.py lines 94-96: `max_concurrent_per_museum = max(1,
max_concurrent_requests // active_museums)` and `num_workers =
min(max_concurrent_per_museum, max_concurrent_requests)`, where
`active_museums` is the snapshot taken just after the increment on
line 84. -/
def num_workers (maxConcurrentRequests activeMuseums : ℕ) : ℕ :=
  min (max 1 (maxConcurrentRequests / activeMuseums)) maxConcurrentRequests

/-- Final stats of a non-cancelled `crawl_museum` run, or `Option.none`
when the run cannot complete normally.  `limit` is
`max_concurrent_requests` and `active` the `active_museums` snapshot
(manager.py lines 94-96); `ids` is the list returned by
`crawler.get_artwork_ids()` (line 117); `cap` is
`max_artworks_per_museum`; `script i` is the result of `process_artwork`
on the `i`-th enqueued item.  With zero discovered identifiers the final
`_log_museum_stats` raises `ZeroDivisionError` (line 222), so the run
does not complete; with a worker count of `0` the run completes without
any item ever being dequeued; otherwise the queue is drained and the
stats are the fold of the worker accounting over the enqueued items. -/
def crawl_museum_run {α : Type} (limit active : ℕ) (cap : Option ℕ)
    (ids : List α) (script : ℕ → ProcessResult) : Option Stats :=
  if ids.isEmpty then Option.none
  else Option.some
    (if num_workers limit active = 0 then initStats
     else runStats ((List.range (truncateIds cap ids).length).map
        (fun i => AwaitOutcome.completed (script i))))

/-! ### Rate limiter (src/utils/rate_limiter.py)

`RateLimiter.acquire` (rate_limiter.py lines 17-30), under the per-name
`asyncio.Lock`, reads `now = time.monotonic()`, computes `time_passed =
now - last_check`, sleeps `min_interval - time_passed` if `time_passed <
min_interval`, and then stores a *fresh* `time.monotonic()` reading as the
new `last_check`.  We model monotonic clock readings as rationals.  One
acquisition is observed as the pair `(t0, t1)` of its two clock readings;
the physics of the clock and of `asyncio.sleep` (a sleep of duration `d`
suspends for at least `d`) become the `ValidAcq` hypotheses.  The lock
serializes acquisitions for one name, so a run is a sequence of such
observations threaded through `last_check`. -/

/-- The quantity `min_interval = period / calls`, rate_limiter.py line 23. -/
def min_interval (calls : ℕ) (period : ℚ) : ℚ := period / (calls : ℚ)

/-- The sleep duration demanded by rate_limiter.py lines 27-29 given the
stored `last_check` and the first clock reading `t0`. -/
def sleepNeeded (calls : ℕ) (period last t0 : ℚ) : ℚ :=
  if t0 - last < min_interval calls period then
    min_interval calls period - (t0 - last)
  else 0

/-- Physical validity of one observed acquisition `(t0, t1)` starting from
stored timestamp `last`: the clock is monotone (`t0` is read after `last`
was stored), and the second reading `t1` happens after the mandated sleep
completes. -/
def ValidAcq (calls : ℕ) (period last t0 t1 : ℚ) : Prop :=
  last ≤ t0 ∧ t0 + sleepNeeded calls period last t0 ≤ t1

/-- The final `last_check` after a sequence of acquisitions, each observed
as its pair of clock readings; line 30 stores the second reading. -/
def runAcquires : ℚ → List (ℚ × ℚ) → ℚ
  | last, [] => last
  | _, p :: rest => runAcquires p.2 rest

/-- Physical validity of a whole observed sequence of acquisitions. -/
def ValidTrace (calls : ℕ) (period : ℚ) : ℚ → List (ℚ × ℚ) → Prop
  | _, [] => True
  | last, p :: rest => ValidAcq calls period last p.1 p.2 ∧ ValidTrace calls period p.2 rest

/-! ### Event trace of `process_artwork`

To settle claims about *when* the global semaphore is held we also embed
`process_artwork` (manager.py lines 224-248) as the sequence of observable
actions it performs: `async with self.request_semaphore:` acquires the
semaphore once before the retry loop and releases it once when the call
returns or raises; inside each attempt it acquires a rate-limiter token,
calls fetch, possibly transform, possibly persist; between failed attempts
it sleeps `2 ** attempt`. -/

/-- Observable actions of `process_artwork`. -/
inductive PEvent where
  | semAcquire
  | semRelease
  | rateAcquire
  | fetchCall
  | transformCall
  | persistCall
  | backoffSleep (d : ℕ)
  deriving DecidableEq

/-- Actions of the body of one attempt (manager.py lines 230-243): the rate
token is acquired, fetch is called; transform runs only if fetch returned a
payload; persist runs only if transform returned a record. -/
def attemptBodyEvents (env : AttemptEnv) : List PEvent :=
  PEvent.rateAcquire :: PEvent.fetchCall ::
    (match env.fetch with
     | FetchResult.err => []
     | FetchResult.notFound => []
     | FetchResult.data =>
       PEvent.transformCall ::
         (match env.transform with
          | TransformResult.err => []
          | TransformResult.none => []
          | TransformResult.data => [PEvent.persistCall]))

/-- Actions of the retry loop of `process_artwork` over the remaining
attempt indices, including the backoff sleeps of line 248. -/
def processForEvents (envs : ℕ → AttemptEnv) (m : ℕ) : List ℕ → List PEvent
  | [] => []
  | a :: rest =>
    attemptBodyEvents (envs a) ++
      (match attemptOnce (envs a) with
       | AttemptOutcome.error =>
         if a = m - 1 then []
         else PEvent.backoffSleep (2 ^ a) :: processForEvents envs m rest
       | _ => [])

/-- Full action trace of one `process_artwork` call: the semaphore is
acquired before the retry loop (line 228) and released when the call
returns or raises (end of the `async with` block). -/
def process_artwork_events (envs : ℕ → AttemptEnv) (m : ℕ) : List PEvent :=
  PEvent.semAcquire :: (processForEvents envs m (List.range m) ++ [PEvent.semRelease])

/-- Whether the semaphore slot is held just before the event at position
`i` of the trace: more acquisitions than releases among the first `i`
events. -/
def semHeldAt (tr : List PEvent) (i : ℕ) : Bool :=
  (tr.take i).count PEvent.semRelease < (tr.take i).count PEvent.semAcquire

/-! ### Orchestrator (src/main.py) and discovery failure

`crawl_museum` (manager.py lines 81-159) calls
`crawler.get_artwork_ids()` on line 117 *before* any worker is created
(line 135); an exception there is logged (`except Exception as e:
logger.error(...)`, lines 154-156) and re-raised, and the `finally` block
closes the crawler session (line 158).  `run_crawlers` (main.py lines
48-64) awaits `asyncio.gather(*tasks)` *without* `return_exceptions=True`
(line 56), so the first task failure propagates out of `run_crawlers`
(through its `finally`) to `asyncio.run`, which then cancels the sibling
tasks that are still pending.  A sibling therefore runs to completion only
if it finished before the failure propagated. -/

/-- One source's externally determined behaviour in a run: whether its
discovery step (`get_artwork_ids`) raises, and the abstract instant at
which its `crawl_museum` task would finish if left alone. -/
structure SourceScript where
  discoveryFails : Bool
  finishTime : ℕ
  stats : Stats

/-- Observable outcome of one `crawl_museum` call, manager.py
lines 81-159. -/
structure ControllerOutcome where
  result : Except Unit Stats
  workersStarted : Bool
  errorLogged : Bool
  sessionClosed : Bool

/-- Embeds the discovery phase of `CrawlerManager.crawl_museum`
(manager.py lines 114-159): a discovery failure is logged and re-raised
before any worker is created, and the `finally` block still closes the
session; otherwise workers start and the run's stats are produced. -/
def crawl_museum (s : SourceScript) : ControllerOutcome :=
  if s.discoveryFails then
    { result := Except.error (), workersStarted := false,
      errorLogged := true, sessionClosed := true }
  else
    { result := Except.ok s.stats, workersStarted := true,
      errorLogged := false, sessionClosed := true }

/-- The instant at which the first failing `crawl_museum` task finishes
(and hence its exception reaches the bare `asyncio.gather` of main.py
line 56), if any task fails. -/
def firstFailTime (runs : List SourceScript) : Option ℕ :=
  ((runs.filter (fun r => r.discoveryFails)).map (fun r => r.finishTime)).min?

/-- Embeds the overall result of `run_crawlers` (main.py lines 48-64):
with no `return_exceptions=True` on the gather, any per-source failure
propagates out of `run_crawlers`. -/
def run_crawlers (runs : List SourceScript) : Except Unit (List Stats) :=
  if runs.any (fun r => r.discoveryFails) then Except.error ()
  else Except.ok (runs.map (fun r => r.stats))

/-- Whether source `i` runs to completion: if no task fails, every task is
awaited to completion; if some task fails at instant `t`, `asyncio.run`
cancels the tasks still pending when the exception propagates, so a task
completes only if it finished by `t`. -/
def ranToCompletion (runs : List SourceScript) (i : ℕ) : Bool :=
  match firstFailTime runs with
  | Option.none => true
  | Option.some t =>
    match runs[i]? with
    | Option.none => false
    | Option.some r => r.finishTime ≤ t

/-! ## Helper lemmas -/

/-- Every handled item bumps `total_processed` by exactly one (the
`finally` block of manager.py lines 187-190 runs on all three paths). -/
theorem workerRecord_total (s : Stats) (o : AwaitOutcome) :
    (workerRecord s o).total_processed = s.total_processed + 1 := by
  cases o with
  | completed r => cases r <;> rfl
  | cancelled => rfl

/-- Every non-cancelled handled item bumps exactly one of `successful`,
`failed` (manager.py lines 183 and 186). -/
theorem workerRecord_sum (s : Stats) (o : AwaitOutcome)
    (ho : o ≠ AwaitOutcome.cancelled) :
    (workerRecord s o).successful + (workerRecord s o).failed
      = s.successful + s.failed + 1 := by
  cases o with
  | completed r => cases r <;> simp [workerRecord] <;> omega
  | cancelled => exact absurd rfl ho

theorem foldl_workerRecord_total (outs : List AwaitOutcome) :
    ∀ s : Stats, (outs.foldl workerRecord s).total_processed
      = s.total_processed + outs.length := by
  induction outs with
  | nil => intro s; rfl
  | cons o rest ih =>
    intro s
    have h := ih (workerRecord s o)
    simp only [List.foldl_cons, h, workerRecord_total, List.length_cons]
    omega

theorem foldl_workerRecord_sum (outs : List AwaitOutcome)
    (h : ∀ o ∈ outs, o ≠ AwaitOutcome.cancelled) :
    ∀ s : Stats, (outs.foldl workerRecord s).successful
        + (outs.foldl workerRecord s).failed
      = s.successful + s.failed + outs.length := by
  induction outs with
  | nil => intro s; rfl
  | cons o rest ih =>
    intro s
    have hrest := ih (fun x hx => h x (List.mem_cons_of_mem o hx)) (workerRecord s o)
    simp only [List.foldl_cons, hrest, List.length_cons]
    have := workerRecord_sum s o (h o (List.mem_cons_self o rest))
    omega

/-! ## Claims -/

/-- Claim C9. If the persistence upsert raises a duplicate-key error,
`save_artwork` catches it, logs a warning, and returns normally — so the
item is not retried (no backoff sleeps) and is counted as successful —
while every other persistence exception is logged and re-raised to the
retry loop (where it counts as an attempt error). -/
theorem C9_duplicate_key_upsert :
    (save_artwork PersistResult.dupKey).result = Except.ok ()
    ∧ (save_artwork PersistResult.dupKey).warnLogged = true
    ∧ (save_artwork PersistResult.failure).result = Except.error ()
    ∧ (save_artwork PersistResult.failure).errLogged = true
    ∧ process_artwork
        (fun _ => ⟨FetchResult.data, TransformResult.data, PersistResult.dupKey⟩) 3
        = (ProcessResult.retTrue, [])
    ∧ (workerRecord initStats (AwaitOutcome.completed ProcessResult.retTrue)).successful = 1
    ∧ (workerRecord initStats (AwaitOutcome.completed ProcessResult.retTrue)).failed = 0
    ∧ attemptOnce ⟨FetchResult.data, TransformResult.data, PersistResult.failure⟩
        = AttemptOutcome.error := by
  decide

/-- Claim C10. If a worker is cancelled while awaiting an in-flight item's
processing task, the `except Exception` handlers do not catch the
`CancelledError`, but the `finally` block still runs: the item increments
`total_processed` without incrementing `successful` or `failed`, and the
worker exits its loop (the remaining iterations are never reached). -/
theorem C10_cancelled_inflight_accounting (k : ℕ) (rest : List WIter) (s : Stats) :
    workerLoop k
        ({ shutdown := false, dq := DequeueResult.item AwaitOutcome.cancelled } :: rest) s
      = ({ s with total_processed := s.total_processed + 1 }, [k])
    ∧ (workerRecord s AwaitOutcome.cancelled).successful = s.successful
    ∧ (workerRecord s AwaitOutcome.cancelled).failed = s.failed
    ∧ (workerRecord s AwaitOutcome.cancelled).total_processed = s.total_processed + 1 := by
  exact ⟨rfl, rfl, rfl, rfl⟩

/-- Claim C6 counterexample. With `max_concurrent_requests = 0` (one active
museum), the code computes `min(max(1, 0 // 1), 0) = 0` workers, not the
claimed `max(1, floor(0 / 1)) = 1`. -/
theorem C6_worker_count_counterexample :
    ¬ (num_workers 0 1 = max 1 (0 / 1)) := by
  decide

/-- Claim C6 (amended). When a source's controller starts, its worker count
equals `min(max(1, limit // active), limit)` computed from the snapshot of
the number of active museums at that moment (the embedding takes that
snapshot as an argument, and manager.py never recomputes `num_workers`
after line 96); whenever `limit ≥ 1` this coincides with the claimed
`max(1, limit // active)`. -/
theorem C6_worker_count (L a : ℕ) :
    num_workers L a = min (max 1 (L / a)) L
    ∧ (1 ≤ L → num_workers L a = max 1 (L / a)) := by
  refine ⟨rfl, fun hL => ?_⟩
  have hdiv : L / a ≤ L := Nat.div_le_self L a
  exact min_eq_left (max_le hL hdiv)

/-- Claim C6 witness. 50 concurrent requests split across 2 active museums
gives 25 workers. -/
theorem C6_worker_count_witness : num_workers 50 2 = max 1 (50 / 2) :=
  (C6_worker_count 50 2).2 (by norm_num)

/-- The worker pool computed at manager.py lines 95-96 is empty exactly
when `max_concurrent_requests = 0`. -/
theorem num_workers_eq_zero_iff (L a : ℕ) : num_workers L a = 0 ↔ L = 0 := by
  cases L with
  | zero => simp [num_workers]
  | succ l =>
    constructor
    · intro h
      have h1 : 1 ≤ max 1 (Nat.succ l / a) := le_max_left 1 _
      have h2 : 1 ≤ min (max 1 (Nat.succ l / a)) (Nat.succ l) := le_min h1 (by omega)
      rw [num_workers] at h
      omega
    · intro h
      exact absurd h (by omega)

/-- Claim C1 counterexample. The claimed formula
`total_processed == min(discoveredCount, maxItemsConfigured ?? discoveredCount)`
fails when a cap of `0` is configured: `if self.max_artworks_per_museum:`
(manager.py line 121) treats `0` as falsy and does not truncate, so a run
over one discovered item (limit 50, one active museum) completes with
`total_processed = 1`, while the claimed formula yields `min(1, 0) = 0`. -/
theorem C1_cap_zero_counterexample :
    crawl_museum_run 50 1 (Option.some 0) [(0 : ℕ)] (fun _ => ProcessResult.retTrue)
        = Option.some { total_processed := 1, successful := 1, failed := 0 }
    ∧ (1 : ℕ) ≠ min ([(0 : ℕ)] : List ℕ).length
        ((Option.some 0).getD ([(0 : ℕ)] : List ℕ).length) := by
  decide

/-- Claim C1 (amended). For every completed (non-cancelled) source run the
final stats satisfy `total_processed = successful + failed`.  A run with
zero discovered identifiers never completes (`_log_museum_stats` divides
by `total_artworks = 0`, manager.py line 222).  When the global
concurrency limit is at least 1 (so at least one worker is started),
`total_processed` equals the number of enqueued identifiers:
`min(discoveredCount, cap)` for a configured positive cap, and
`discoveredCount` when the cap is `None` or `0` (Python truthiness on
`max_artworks_per_museum`, line 121).  When the limit is 0 the worker pool
of lines 95-96 is empty and the run completes with the initial stats:
`total_processed = 0` no matter how many identifiers were enqueued. -/
theorem C1_completed_run_stats {α : Type} (limit active : ℕ) (cap : Option ℕ)
    (ids : List α) (script : ℕ → ProcessResult) (_hact : 1 ≤ active) :
    (∀ st, crawl_museum_run limit active cap ids script = Option.some st →
        st.total_processed = st.successful + st.failed)
    ∧ (crawl_museum_run limit active cap ids script = Option.none ↔ ids = [])
    ∧ (∀ st, 1 ≤ limit →
        crawl_museum_run limit active cap ids script = Option.some st →
        st.total_processed = (truncateIds cap ids).length)
    ∧ (limit = 0 → ids ≠ [] →
        crawl_museum_run limit active cap ids script = Option.some initStats)
    ∧ (∀ c, cap = Option.some c → 0 < c →
        (truncateIds cap ids).length = min ids.length c)
    ∧ ((cap = Option.none ∨ cap = Option.some 0) →
        (truncateIds cap ids).length = ids.length) := by
  set outs := (List.range (truncateIds cap ids).length).map
      (fun i => AwaitOutcome.completed (script i)) with houts
  have hnc : ∀ o ∈ outs, o ≠ AwaitOutcome.cancelled := by
    intro o ho
    rw [houts, List.mem_map] at ho
    obtain ⟨i, _, hi⟩ := ho
    rw [← hi]
    exact fun hcon => AwaitOutcome.noConfusion hcon
  have hlen : outs.length = (truncateIds cap ids).length := by
    rw [houts, List.length_map, List.length_range]
  have htot := foldl_workerRecord_total outs initStats
  have hsum := foldl_workerRecord_sum outs hnc initStats
  have hempty : ids.isEmpty = true ↔ ids = [] := by cases ids <;> simp
  have hrun : crawl_museum_run limit active cap ids script
      = if ids.isEmpty then Option.none
        else Option.some
          (if num_workers limit active = 0 then initStats
           else outs.foldl workerRecord initStats) := rfl
  refine ⟨?_, ?_, ?_, ?_, ?_, ?_⟩
  · intro st hst
    rw [hrun] at hst
    by_cases hid : ids.isEmpty
    · rw [if_pos hid] at hst
      exact Option.noConfusion hst
    · rw [if_neg hid] at hst
      by_cases hw : num_workers limit active = 0
      · rw [if_pos hw] at hst
        injection hst with h
        subst h
        rfl
      · rw [if_neg hw] at hst
        injection hst with h
        subst h
        rw [htot, hsum]
        simp [initStats]
  · by_cases hid : ids.isEmpty
    · rw [hrun, if_pos hid]
      simp [hempty.mp hid]
    · rw [hrun, if_neg hid]
      constructor
      · intro h
        exact Option.noConfusion h
      · intro h
        exact absurd (hempty.mpr h) hid
  · intro st hlim hst
    rw [hrun] at hst
    by_cases hid : ids.isEmpty
    · rw [if_pos hid] at hst
      exact Option.noConfusion hst
    · have hw : ¬ (num_workers limit active = 0) := by
        rw [num_workers_eq_zero_iff]
        omega
      rw [if_neg hid, if_neg hw] at hst
      injection hst with h
      subst h
      rw [htot, hlen]
      simp [initStats]
  · intro h0 hne
    rw [hrun, if_neg (fun hid => hne (hempty.mp hid)),
      if_pos ((num_workers_eq_zero_iff limit active).mpr h0)]
  · intro c hc hpos
    rw [hc]
    show (if c ≠ 0 then ids.take c else ids).length = min ids.length c
    rw [if_pos (Nat.pos_iff_ne_zero.mp hpos), List.length_take, Nat.min_comm]
  · rintro (hc | hc) <;> rw [hc]
    · rfl
    · show (if (0 : ℕ) ≠ 0 then ids.take 0 else ids).length = ids.length
      rw [if_neg (by norm_num)]

/-- Claim C1 witness. A run with limit 50, one active museum, three
discovered identifiers and a configured cap of 2 completes having
processed `min(3, 2) = 2` items. -/
theorem C1_completed_run_stats_witness :
    ({ total_processed := 2, successful := 2, failed := 0 } : Stats).total_processed
      = (truncateIds (Option.some 2) [(0 : ℕ), 1, 2]).length :=
  (C1_completed_run_stats 50 1 (Option.some 2) [(0 : ℕ), 1, 2]
      (fun _ => ProcessResult.retTrue) (by norm_num)).2.2.1
    { total_processed := 2, successful := 2, failed := 0 } (by norm_num) (by decide)

/-- Unfolding equation of the retry loop on a non-empty attempt list. -/
theorem processFor_cons (envs : ℕ → AttemptEnv) (m a : ℕ) (rest : List ℕ) :
    processFor envs m (a :: rest)
      = match attemptOnce (envs a) with
        | AttemptOutcome.skip => (ProcessResult.retFalse, [])
        | AttemptOutcome.success => (ProcessResult.retTrue, [])
        | AttemptOutcome.error =>
          if a = m - 1 then (ProcessResult.raised, [])
          else ((processFor envs m rest).1, 2 ^ a :: (processFor envs m rest).2) := rfl

/-- Retry-loop characterization, failing case: starting at attempt `a`
with `k + 1` attempts left (so `a + k + 1 = m`), if every remaining
attempt errors, the loop re-raises on the last attempt, having slept
`2 ^ i` after each earlier failed attempt `i`. -/
theorem processFor_allError (envs : ℕ → AttemptEnv) (m : ℕ) :
    ∀ k a, a + (k + 1) = m →
      (∀ i, a ≤ i → i < m → attemptOnce (envs i) = AttemptOutcome.error) →
      processFor envs m (List.range' a (k + 1))
        = (ProcessResult.raised, (List.range' a k).map (fun i => 2 ^ i)) := by
  intro k
  induction k with
  | zero =>
    intro a ha herr
    have he : attemptOnce (envs a) = AttemptOutcome.error := herr a le_rfl (by omega)
    have hlast : a = m - 1 := by omega
    have hl : List.range' a (0 + 1) = a :: List.range' (a + 1) 0 := List.range'_succ a 0 1
    rw [hl]
    simp only [processFor_cons, he, List.range'_zero, List.map_nil]
    rw [if_pos hlast]
  | succ n ih =>
    intro a ha herr
    have he : attemptOnce (envs a) = AttemptOutcome.error := herr a le_rfl (by omega)
    have hnl : ¬ (a = m - 1) := by omega
    have hrec := ih (a + 1) (by omega) (fun i h1 h2 => herr i (by omega) h2)
    have hl : List.range' a (n + 1 + 1) = a :: List.range' (a + 1) (n + 1) :=
      List.range'_succ a (n + 1) 1
    have hr : List.range' a (n + 1) = a :: List.range' (a + 1) n := List.range'_succ a n 1
    rw [hl, hr]
    simp only [processFor_cons, he, List.map_cons]
    rw [if_neg hnl, hrec]

/-- Retry-loop characterization, stopping case: if attempts `a` to
`a + k - 1` error and attempt `a + k < m` does not, the loop returns that
attempt's value (`return False` on a skip, `return True` on success),
having slept `2 ^ i` after each failed attempt `i`. -/
theorem processFor_firstStop (envs : ℕ → AttemptEnv) (m : ℕ) :
    ∀ k a, (∀ i, a ≤ i → i < a + k → attemptOnce (envs i) = AttemptOutcome.error) →
      attemptOnce (envs (a + k)) ≠ AttemptOutcome.error → a + k < m →
      processFor envs m (List.range' a (m - a))
        = (stopResult (attemptOnce (envs (a + k))),
           (List.range' a k).map (fun i => 2 ^ i)) := by
  intro k
  induction k with
  | zero =>
    intro a _ hstop hlt
    rw [Nat.add_zero] at hstop hlt ⊢
    have hsplit : m - a = (m - a - 1) + 1 := by omega
    have hl : List.range' a ((m - a - 1) + 1) = a :: List.range' (a + 1) (m - a - 1) :=
      List.range'_succ a (m - a - 1) 1
    rw [hsplit, hl]
    simp only [processFor_cons, List.range'_zero, List.map_nil]
    rcases h3 : attemptOnce (envs a) with _ | _ | _ <;> simp [stopResult]
    exact absurd h3 hstop
  | succ n ih =>
    intro a herr hstop hlt
    have he : attemptOnce (envs a) = AttemptOutcome.error := herr a le_rfl (by omega)
    have hnl : ¬ (a = m - 1) := by omega
    have harith : a + 1 + n = a + (n + 1) := by omega
    have hrec := ih (a + 1) (fun i h1 h2 => herr i (by omega) (by omega))
      (by rw [harith]; exact hstop) (by omega)
    rw [harith] at hrec
    have hsplit : m - a = (m - (a + 1)) + 1 := by omega
    have hl : List.range' a ((m - (a + 1)) + 1) = a :: List.range' (a + 1) (m - (a + 1)) :=
      List.range'_succ a (m - (a + 1)) 1
    have hr : List.range' a (n + 1) = a :: List.range' (a + 1) n := List.range'_succ a n 1
    rw [hsplit, hl, hr]
    simp only [processFor_cons, he, List.map_cons]
    rw [if_neg hnl, hrec]

/-- Claim C3. Item processing makes up to `max_retries` attempts: if every
attempt raises, the loop sleeps exactly `2 ^ i` after each failing attempt
`i` with attempts remaining (`i = 0, …, m - 2`), and the final attempt's
error propagates to the worker, which records the item as failed (and not
successful); if the first non-erroring attempt is `j`, the call returns
after `j + 1` attempts with sleeps `2 ^ 0, …, 2 ^ (j - 1)`. -/
theorem C3_retry_backoff (envs : ℕ → AttemptEnv) (m : ℕ) (hm : 1 ≤ m) :
    ((∀ i, i < m → attemptOnce (envs i) = AttemptOutcome.error) →
        process_artwork envs m
          = (ProcessResult.raised, (List.range (m - 1)).map (fun i => 2 ^ i)))
    ∧ (∀ j, j < m → (∀ i, i < j → attemptOnce (envs i) = AttemptOutcome.error) →
        attemptOnce (envs j) ≠ AttemptOutcome.error →
        process_artwork envs m
          = (stopResult (attemptOnce (envs j)), (List.range j).map (fun i => 2 ^ i)))
    ∧ (∀ s, (workerRecord s (AwaitOutcome.completed ProcessResult.raised)).failed
            = s.failed + 1
          ∧ (workerRecord s (AwaitOutcome.completed ProcessResult.raised)).successful
            = s.successful) := by
  refine ⟨?_, ?_, fun s => ⟨rfl, rfl⟩⟩
  · intro herr
    have h := processFor_allError envs m (m - 1) 0 (by omega)
      (fun i _ h2 => herr i h2)
    rw [show (m - 1) + 1 = m by omega] at h
    rw [process_artwork, List.range_eq_range', h, List.range_eq_range']
  · intro j hj herr hstop
    have h := processFor_firstStop envs m j 0 (fun i _ h2 => herr i (by omega))
      (by rw [Nat.zero_add]; exact hstop) (by omega)
    rw [Nat.zero_add, Nat.sub_zero] at h
    rw [process_artwork, List.range_eq_range', h, List.range_eq_range']

/-- Claim C3 witness. With the default `max_retries = 3` and a fetch that
raises on every attempt, processing raises after backoff sleeps of 1 then
2 time units. -/
theorem C3_retry_backoff_witness :
    process_artwork (fun _ => ⟨FetchResult.err, TransformResult.data, PersistResult.ok⟩) 3
      = (ProcessResult.raised, [1, 2]) := by
  have h := (C3_retry_backoff
      (fun _ => ⟨FetchResult.err, TransformResult.data, PersistResult.ok⟩) 3
      (by norm_num)).1 (fun i _ => rfl)
  exact h.trans (by decide)

/-- Unfolding equation of the retry-loop event trace on a non-empty
attempt list. -/
theorem processForEvents_cons (envs : ℕ → AttemptEnv) (m a : ℕ) (rest : List ℕ) :
    processForEvents envs m (a :: rest)
      = attemptBodyEvents (envs a) ++
          (match attemptOnce (envs a) with
           | AttemptOutcome.error =>
             if a = m - 1 then []
             else PEvent.backoffSleep (2 ^ a) :: processForEvents envs m rest
           | _ => []) := rfl

/-- Claim C2 counterexample. For an item whose fetch returns the "not found"
sentinel, the worker does *not* record a third outcome category:
`process_artwork` returns `False` without raising, so the worker's success
path runs and `successful` is incremented (manager.py line 183).  The
claimed "recorded as neither success nor failure" is false at this
input. -/
theorem C2_skip_counted_successful_counterexample :
    ¬ ((workerRecord initStats (AwaitOutcome.completed
          (process_artwork
            (fun _ => ⟨FetchResult.notFound, TransformResult.data, PersistResult.ok⟩)
            3).1)).successful = 0
        ∧ (workerRecord initStats (AwaitOutcome.completed
          (process_artwork
            (fun _ => ⟨FetchResult.notFound, TransformResult.data, PersistResult.ok⟩)
            3).1)).failed = 0) := by
  decide

/-- Claim C2 (amended). For every item whose fetch returns the "not found"
sentinel (or whose transform returns `None`), `process_artwork` returns
`False` on the first attempt: it is not retried (the trace contains no
backoff sleep) and not persisted (the trace contains no persist call).
However, the worker folds this outcome into the `successful` counter —
it is *not* a third outcome category distinct from success: the worker
increments `successful` and `total_processed`, leaving `failed`
untouched. -/
theorem C2_skip_semantics (envs : ℕ → AttemptEnv) (m : ℕ) (hm : 1 ≤ m)
    (hskip : (envs 0).fetch = FetchResult.notFound
      ∨ ((envs 0).fetch = FetchResult.data
          ∧ (envs 0).transform = TransformResult.none)) :
    process_artwork envs m = (ProcessResult.retFalse, [])
    ∧ PEvent.persistCall ∉ process_artwork_events envs m
    ∧ (∀ d, PEvent.backoffSleep d ∉ process_artwork_events envs m)
    ∧ (∀ s, workerRecord s (AwaitOutcome.completed ProcessResult.retFalse)
        = { s with successful := s.successful + 1,
                   total_processed := s.total_processed + 1 }) := by
  have hone : attemptOnce (envs 0) = AttemptOutcome.skip := by
    rcases hskip with hf | ⟨hf, ht⟩
    · simp [attemptOnce, hf]
    · simp [attemptOnce, hf, ht]
  obtain ⟨k, rfl⟩ : ∃ k, m = k + 1 := ⟨m - 1, by omega⟩
  have hl : List.range (k + 1) = 0 :: List.range' 1 k := by
    rw [List.range_eq_range']
    exact List.range'_succ 0 k 1
  have hev : process_artwork_events envs (k + 1)
      = PEvent.semAcquire :: (attemptBodyEvents (envs 0) ++ [PEvent.semRelease]) := by
    rw [process_artwork_events, hl, processForEvents_cons, hone]
    simp
  have hbody : attemptBodyEvents (envs 0) = [PEvent.rateAcquire, PEvent.fetchCall]
      ∨ attemptBodyEvents (envs 0)
        = [PEvent.rateAcquire, PEvent.fetchCall, PEvent.transformCall] := by
    rcases hskip with hf | ⟨hf, ht⟩
    · exact Or.inl (by simp [attemptBodyEvents, hf])
    · exact Or.inr (by simp [attemptBodyEvents, hf, ht])
  refine ⟨?_, ?_, ?_, fun s => rfl⟩
  · rw [process_artwork, hl, processFor_cons, hone]
  · rw [hev]
    rcases hbody with hb | hb <;> rw [hb] <;> decide
  · intro d
    rw [hev]
    rcases hbody with hb | hb <;> rw [hb] <;> simp

/-- Claim C2 witness. A fetch returning "not found" on the first attempt
with the default `max_retries = 3`. -/
theorem C2_skip_semantics_witness :
    process_artwork
      (fun _ => ⟨FetchResult.notFound, TransformResult.data, PersistResult.ok⟩) 3
      = (ProcessResult.retFalse, []) :=
  (C2_skip_semantics
    (fun _ => ⟨FetchResult.notFound, TransformResult.data, PersistResult.ok⟩) 3
    (by norm_num) (Or.inl rfl)).1

/-- No attempt body touches the semaphore: the `async with
self.request_semaphore` of manager.py line 228 wraps the whole retry loop,
so acquisition/release events never occur inside an attempt. -/
theorem attemptBody_no_sem (env : AttemptEnv) :
    PEvent.semAcquire ∉ attemptBodyEvents env
    ∧ PEvent.semRelease ∉ attemptBodyEvents env := by
  rcases env with ⟨f, t, p⟩
  cases f <;> cases t <;> cases p <;> decide

/-- The retry loop's event trace contains no semaphore event. -/
theorem processForEvents_no_sem (envs : ℕ → AttemptEnv) (m : ℕ) :
    ∀ l, PEvent.semAcquire ∉ processForEvents envs m l
      ∧ PEvent.semRelease ∉ processForEvents envs m l := by
  intro l
  induction l with
  | nil => exact ⟨by simp [processForEvents], by simp [processForEvents]⟩
  | cons a rest ih =>
    have hb := attemptBody_no_sem (envs a)
    rw [processForEvents_cons]
    cases h : attemptOnce (envs a) with
    | success => simpa using hb
    | skip => simpa using hb
    | error =>
      by_cases hif : a = m - 1
      · rw [if_pos hif]
        simpa using hb
      · rw [if_neg hif]
        constructor
        · simp only [List.mem_append, List.mem_cons, not_or]
          exact ⟨hb.1, by simp, ih.1⟩
        · simp only [List.mem_append, List.mem_cons, not_or]
          exact ⟨hb.2, by simp, ih.2⟩

/-- Claim C5 counterexample. With a fetch that raises on the first attempt
(`max_retries = 3`), the trace of `process_artwork` has the backoff sleep
of manager.py line 248 at position 3, and the semaphore *is* held there:
the claimed "the semaphore is not held across backoff sleeps between
attempts" is false at this input. -/
theorem C5_sem_held_during_backoff_counterexample :
    (process_artwork_events
        (fun _ => ⟨FetchResult.err, TransformResult.data, PersistResult.ok⟩) 3)[3]?
        = Option.some (PEvent.backoffSleep 1)
    ∧ semHeldAt (process_artwork_events
        (fun _ => ⟨FetchResult.err, TransformResult.data, PersistResult.ok⟩) 3) 3
        = true := by
  decide

/-- Claim C5 (amended). During one item-processing call the global
concurrency semaphore is acquired first (in particular before any
rate-limiter token), and is held for the *entire* call — every attempt
and every backoff sleep between attempts — being released exactly once,
when `process_artwork` returns or raises: the trace is
`semAcquire :: body ++ [semRelease]` with no semaphore event inside
`body`, and the semaphore is held at every interior position of the
trace. -/
theorem C5_semaphore_scope (envs : ℕ → AttemptEnv) (m : ℕ) :
    process_artwork_events envs m
        = PEvent.semAcquire ::
            (processForEvents envs m (List.range m) ++ [PEvent.semRelease])
    ∧ PEvent.semAcquire ∉ processForEvents envs m (List.range m)
    ∧ PEvent.semRelease ∉ processForEvents envs m (List.range m)
    ∧ (∀ i, 1 ≤ i → i ≤ (processForEvents envs m (List.range m)).length + 1 →
        semHeldAt (process_artwork_events envs m) i = true) := by
  obtain ⟨hna, hnr⟩ := processForEvents_no_sem envs m (List.range m)
  refine ⟨rfl, hna, hnr, ?_⟩
  intro i h1 h2
  obtain ⟨j, rfl⟩ : ∃ j, i = j + 1 := ⟨i - 1, by omega⟩
  set body := processForEvents envs m (List.range m) with hbody
  have htr : process_artwork_events envs m
      = PEvent.semAcquire :: (body ++ [PEvent.semRelease]) := rfl
  rw [htr]
  have htake : (PEvent.semAcquire :: (body ++ [PEvent.semRelease])).take (j + 1)
      = PEvent.semAcquire :: (body ++ [PEvent.semRelease]).take j :=
    List.take_succ_cons
  have hj : j ≤ body.length := by omega
  have htake2 : (body ++ [PEvent.semRelease]).take j = body.take j := by
    rw [List.take_append_eq_append_take, Nat.sub_eq_zero_of_le hj, List.take_zero,
      List.append_nil]
  have hrel0 : (body.take j).count PEvent.semRelease = 0 :=
    List.count_eq_zero.mpr (fun hmem => hnr (List.take_subset j body hmem))
  simp only [semHeldAt, htake, htake2]
  rw [List.count_cons_self]
  rw [List.count_cons_of_ne (by simp)]
  rw [hrel0]
  simp

/-- Claim C5 witness. At the concrete failing-fetch trace, the semaphore is
held at position 3 (the first backoff sleep). -/
theorem C5_semaphore_scope_witness :
    semHeldAt (process_artwork_events
        (fun _ => ⟨FetchResult.err, TransformResult.data, PersistResult.ok⟩) 3) 3
      = true :=
  (C5_semaphore_scope
      (fun _ => ⟨FetchResult.err, TransformResult.data, PersistResult.ok⟩) 3).2.2.2
    3 (by norm_num) (by decide)

/-- The sleep mandated by rate_limiter.py lines 28-29 is never negative. -/
theorem sleepNeeded_nonneg (calls : ℕ) (period last t0 : ℚ) :
    0 ≤ sleepNeeded calls period last t0 := by
  by_cases h : t0 - last < min_interval calls period
  · rw [sleepNeeded, if_pos h]
    linarith
  · rw [sleepNeeded, if_neg h]

/-- One valid acquisition advances `last_check` by at least
`min_interval`. -/
theorem validAcq_gap (calls : ℕ) (period last t0 t1 : ℚ)
    (h : ValidAcq calls period last t0 t1) :
    last + min_interval calls period ≤ t1 := by
  obtain ⟨h0, h1⟩ := h
  by_cases hc : t0 - last < min_interval calls period
  · rw [sleepNeeded, if_pos hc] at h1
    linarith
  · rw [sleepNeeded, if_neg hc] at h1
    push_neg at hc
    linarith

/-- Over a valid sequence of acquisitions the stored timestamp advances by
at least `min_interval` per acquisition. -/
theorem validTrace_bound (calls : ℕ) (period : ℚ) :
    ∀ (tr : List (ℚ × ℚ)) (last : ℚ), ValidTrace calls period last tr →
      last + tr.length * min_interval calls period ≤ runAcquires last tr := by
  intro tr
  induction tr with
  | nil =>
    intro last _
    simp [runAcquires]
  | cons p rest ih =>
    intro last h
    obtain ⟨hacq, hrest⟩ := h
    have h1 := validAcq_gap calls period last p.1 p.2 hacq
    have h2 := ih p.2 hrest
    have hlen : (((p :: rest).length : ℚ)) * min_interval calls period
        = (rest.length : ℚ) * min_interval calls period + min_interval calls period := by
      push_cast [List.length_cons]
      ring
    calc last + ((p :: rest).length : ℚ) * min_interval calls period
        = last + min_interval calls period
            + (rest.length : ℚ) * min_interval calls period := by rw [hlen]; ring
      _ ≤ p.2 + (rest.length : ℚ) * min_interval calls period := by linarith
      _ ≤ runAcquires p.2 rest := h2
      _ = runAcquires last (p :: rest) := rfl

/-- Claim C4. For every configured source, any two consecutive completed
rate-limiter acquisitions are separated by at least `period / calls`:
over any physically valid observed sequence the stored `last_check`
advances by at least `n · (period / calls)` across `n` acquisitions, and
the end of the last acquisition trails the first acquisition's start clock
reading by at least `(n - 1) · (period / calls)` — in particular, with
`calls = 2, period = 1.0`, five sequential `acquire` calls take at least
`2.0` time units end to end.  The per-name `asyncio.Lock` (rate_limiter.py
line 25) serializes acquisitions for one source, which is what justifies
modelling contending callers as one observed sequence. -/
theorem C4_rate_limiter_spacing (calls : ℕ) (period last : ℚ)
    (tr : List (ℚ × ℚ)) (_hc : 0 < calls)
    (hv : ValidTrace calls period last tr) :
    last + tr.length * min_interval calls period ≤ runAcquires last tr
    ∧ (∀ t0 t1 rest, tr = (t0, t1) :: rest →
        t0 + rest.length * min_interval calls period ≤ runAcquires last tr) := by
  refine ⟨validTrace_bound calls period tr last hv, ?_⟩
  rintro t0 t1 rest rfl
  obtain ⟨hacq, hrest⟩ := hv
  have hs := sleepNeeded_nonneg calls period last t0
  have h01 : t0 ≤ t1 := by
    have := hacq.2
    linarith
  have h2 := validTrace_bound calls period rest t1 hrest
  calc t0 + (rest.length : ℚ) * min_interval calls period
      ≤ t1 + (rest.length : ℚ) * min_interval calls period := by linarith
    _ ≤ runAcquires t1 rest := h2
    _ = runAcquires last ((t0, t1) :: rest) := rfl

/-- Claim C4 witness. With `calls = 2, period = 1.0`, five sequential
acquisitions starting from `last_check = 0` at clock time 0: the final
acquisition completes no earlier than 2.0 time units after the first
call's clock reading. -/
theorem C4_rate_limiter_spacing_witness :
    (2 : ℚ) ≤ runAcquires 0
      [((0 : ℚ), (1/2 : ℚ)), (1/2, 1), (1, 3/2), (3/2, 2), (2, 5/2)] := by
  have h := (C4_rate_limiter_spacing 2 1 0
      [((0 : ℚ), (1/2 : ℚ)), (1/2, 1), (1, 3/2), (3/2, 2), (2, 5/2)]
      (by norm_num)
      (by norm_num [ValidTrace, ValidAcq, sleepNeeded, min_interval])).2
      0 (1/2) [((1/2 : ℚ), (1 : ℚ)), (1, 3/2), (3/2, 2), (2, 5/2)] rfl
  norm_num [min_interval] at h
  exact h

/-- Every dequeue attempt recorded by the worker loop happens in an
iteration whose shutdown-flag read was `false` (the `while not
self.shutdown_event.is_set()` guard of manager.py line 164 precedes the
`wait_for` of line 167). -/
theorem workerLoop_dequeue_attempts :
    ∀ (iters : List WIter) (k : ℕ) (s : Stats) (j : ℕ),
      j ∈ (workerLoop k iters s).2 →
      k ≤ j ∧ ∃ it, iters[j - k]? = Option.some it ∧ it.shutdown = false := by
  intro iters
  induction iters with
  | nil =>
    intro k s j hj
    simp [workerLoop] at hj
  | cons it rest ih =>
    intro k s j hj
    obtain ⟨sd, dq⟩ := it
    cases sd with
    | true => simp [workerLoop] at hj
    | false =>
      have hhead : ∀ hk : j = k,
          k ≤ j ∧ ∃ it2, ((⟨false, dq⟩ : WIter) :: rest)[j - k]? = Option.some it2
            ∧ it2.shutdown = false := by
        intro hk
        subst hk
        exact ⟨le_rfl, ⟨⟨false, dq⟩, by simp, rfl⟩⟩
      have htail : ∀ s2 : Stats, j ∈ (workerLoop (k + 1) rest s2).2 →
          k ≤ j ∧ ∃ it2, ((⟨false, dq⟩ : WIter) :: rest)[j - k]? = Option.some it2
            ∧ it2.shutdown = false := by
        intro s2 hj2
        obtain ⟨hk, it2, hit, hsd⟩ := ih (k + 1) s2 j hj2
        refine ⟨by omega, it2, ?_, hsd⟩
        have hsub : j - k = (j - (k + 1)) + 1 := by omega
        rw [hsub, List.getElem?_cons_succ]
        exact hit
      cases dq with
      | timeout =>
        simp only [workerLoop, Bool.false_eq_true, if_false, List.mem_cons] at hj
        rcases hj with hk | hj2
        · exact hhead hk
        · exact htail s hj2
      | waitCancelled =>
        simp only [workerLoop, Bool.false_eq_true, if_false, List.mem_singleton] at hj
        exact hhead hj
      | sentinel =>
        simp only [workerLoop, Bool.false_eq_true, if_false, List.mem_singleton] at hj
        exact hhead hj
      | item o =>
        cases o with
        | cancelled =>
          simp only [workerLoop, Bool.false_eq_true, if_false, List.mem_singleton] at hj
          exact hhead hj
        | completed r =>
          simp only [workerLoop, Bool.false_eq_true, if_false, List.mem_cons] at hj
          rcases hj with hk | hj2
          · exact hhead hk
          · exact htail (workerRecord s (AwaitOutcome.completed r)) hj2

/-- Claim C7. After the Shutdown Signal is set, no worker dequeues a new
item: (i) every dequeue attempt happens in an iteration whose
shutdown-flag read was `false`; (ii) if the flag is set (monotonically)
from iteration `jset` on, every dequeue attempt happens strictly before
`jset`; (iii) a worker whose loop-head flag read is `true` exits at once,
attempting no dequeue; (iv) a dequeue timeout changes no stats and leads
back to the loop head, where the flag is re-checked. -/
theorem C7_no_dequeue_after_shutdown (iters : List WIter) (s : Stats) :
    (∀ j, j ∈ (workerRun iters s).2 →
        ∃ it, iters[j]? = Option.some it ∧ it.shutdown = false)
    ∧ (∀ jset, (∀ i it, iters[i]? = Option.some it → jset ≤ i → it.shutdown = true) →
        ∀ j, j ∈ (workerRun iters s).2 → j < jset)
    ∧ (∀ it rest, it.shutdown = true → workerLoop 0 (it :: rest) s = (s, []))
    ∧ (∀ k rest s0,
        workerLoop k ({ shutdown := false, dq := DequeueResult.timeout } :: rest) s0
          = ((workerLoop (k + 1) rest s0).1, k :: (workerLoop (k + 1) rest s0).2)) := by
  have hmain : ∀ j, j ∈ (workerRun iters s).2 →
      ∃ it, iters[j]? = Option.some it ∧ it.shutdown = false := by
    intro j hj
    obtain ⟨_, it, hit, hsd⟩ := workerLoop_dequeue_attempts iters 0 s j hj
    rw [Nat.sub_zero] at hit
    exact ⟨it, hit, hsd⟩
  refine ⟨hmain, ?_, ?_, fun k rest s0 => rfl⟩
  · intro jset hset j hj
    obtain ⟨it, hit, hsd⟩ := hmain j hj
    by_contra hlt
    push_neg at hlt
    rw [hset j it hit hlt] at hsd
    exact Bool.noConfusion hsd
  · intro it rest h
    simp [workerLoop, h]

/-- Claim C7 witness. A worker that times out once and then reads the flag
as set (from iteration 1 on) attempts its only dequeue at iteration
`0 < 1`. -/
theorem C7_no_dequeue_after_shutdown_witness : (0 : ℕ) < 1 := by
  refine (C7_no_dequeue_after_shutdown
      [⟨false, DequeueResult.timeout⟩, ⟨true, DequeueResult.sentinel⟩] initStats).2.1
      1 ?_ 0 ?_
  · intro i it hit hle
    match i, hit with
    | 1, hit => rw [(by simpa using hit : ({ shutdown := true, dq := DequeueResult.sentinel } : WIter) = it).symm]
    | n + 2, hit => simp at hit
  · decide

/-- Claim C8 counterexample. Two sources, the first of which fails discovery
immediately while the second would finish later: the first controller
raises (having started no workers), `asyncio.gather` without
`return_exceptions=True` (main.py line 56) propagates the error out of
`run_crawlers`, and the still-pending sibling is cancelled rather than run
to completion — refuting "the Orchestrator continues running the other
sources to completion". -/
theorem C8_sibling_cancelled_counterexample :
    run_crawlers [⟨true, 0, initStats⟩, ⟨false, 5, initStats⟩] = Except.error ()
    ∧ ranToCompletion [⟨true, 0, initStats⟩, ⟨false, 5, initStats⟩] 1 = false
    ∧ (crawl_museum ⟨true, 0, initStats⟩).workersStarted = false := by
  exact ⟨rfl, rfl, rfl⟩

/-- Claim C8 (amended). A failure in a source's discovery step is logged,
terminates that source's controller without starting workers (the
`finally` block still closes its session), and propagates the error to
the Orchestrator; but the Orchestrator's bare `asyncio.gather` has no
per-source exception isolation, so the whole run fails and sibling
sources still pending when the error propagates are cancelled rather than
continued to completion. -/
theorem C8_discovery_failure (s : SourceScript) (h : s.discoveryFails = true) :
    (crawl_museum s).result = Except.error ()
    ∧ (crawl_museum s).workersStarted = false
    ∧ (crawl_museum s).errorLogged = true
    ∧ (crawl_museum s).sessionClosed = true
    ∧ (∀ runs, s ∈ runs → run_crawlers runs = Except.error ()) := by
  refine ⟨by simp [crawl_museum, h], by simp [crawl_museum, h],
    by simp [crawl_museum, h], by simp [crawl_museum, h], ?_⟩
  intro runs hmem
  rw [run_crawlers, if_pos (List.any_eq_true.mpr ⟨s, hmem, h⟩)]

/-- Claim C8 witness. A single source whose discovery fails makes the whole
`run_crawlers` call raise. -/
theorem C8_discovery_failure_witness :
    run_crawlers [({ discoveryFails := true, finishTime := 0, stats := initStats } : SourceScript)]
      = Except.error () :=
  (C8_discovery_failure ⟨true, 0, initStats⟩ rfl).2.2.2.2
    [⟨true, 0, initStats⟩] (List.mem_singleton.mpr rfl)

end Historium
